import Mathlib

/-!
Verification of the genpipeline coroutine pipeline library
(src/genpipeline/__init__.py) against its specification.

The library builds push-based data pipelines out of Python generators:

* `propagate_exceptions` (lines 161-219) wraps every stage body with
  PEP-380-style delegation: values are fed to the inner generator, failures
  are injected at its suspension point, and on an exception escaping the
  body the wrapper first throws it into the declared downstream `target`
  (suppressing whatever that throw raises, lines 209-215) and then re-raises;
  on close it closes the inner generator and then the downstream target
  (lines 216-218).
* `PipeSource.__or__` / `Pipe` / `PipeElement` (lines 222-296) build a lazy
  graph; `resolve` materialises it right-to-left, and the first resolution
  rebinds the node's `send` / `throw` / `close` attributes to the live
  generator's bound methods.
* `broadcast` (lines 397-430) fans one stream out to several targets.
* `iter_filter` / `iter_sink` (lines 299-374) bridge a pull-style consumer
  into the push pipeline using a greenlet.
* `iter_source` (lines 380-394) drives a pipeline from a list.

The model below is a fueled operational semantics.  Machine behaviour that
the model reproduces faithfully:

* a Python generator whose frame was torn down raises `StopIteration` on
  `send`, re-raises the thrown exception on `throw`, and ignores `close`;
* PEP 479: a `StopIteration` escaping a generator frame is replaced by
  `RuntimeError` (`pep479` below);
* greenlets: switching to a dead greenlet returns immediately to the
  caller; `throw` into a dead greenlet raises the thrown exception in the
  caller (the greenlet runtime restores the exception and the switch falls
  through to the parent).

Fuel only bounds the recursion depth of one delivery; `Res.fuelOut` never
occurs in any run appearing in a theorem.  `Res.hang` marks the genuinely
divergent paths of the Python code (sending into an `iter_filter` whose
consumer already returned: the forwarding loop of lines 352-355 never sees
the sentinel again).
-/

namespace Genpipeline

/-- Data values travelling through a pipeline.  `gexit` is a value that is
an instance of `GeneratorExit`; `iter_filter`'s input generator tests
`isinstance(item, GeneratorExit)` (line 324), so such a value is
significant data. -/
inductive Val where
  | n (k : Nat)
  | gexit
deriving DecidableEq, Repr

/-- Exceptions.  `err k` is a user/domain exception (all subclasses of
`Exception`), `stopIt` is `StopIteration`, `runtimeErr` is the
`RuntimeError` that PEP 479 substitutes for a `StopIteration` escaping a
generator frame. -/
inductive Exc where
  | err (k : Nat)
  | stopIt
  | runtimeErr
deriving DecidableEq, Repr

/-- PEP 479: a `StopIteration` propagating out of a generator frame is
replaced with `RuntimeError`; other exceptions pass through. -/
def pep479 (e : Exc) : Exc :=
  if e = .stopIt then .runtimeErr else e

/-- Events observed by a recording terminal stage: a delivered value, a
delivered failure, or the close signal. -/
inductive TEv where
  | got (v : Val)
  | failed (e : Exc)
  | closedEv
deriving DecidableEq, Repr

/-- Result of calling `send` / `throw` / `close` on a live stage (a Python
generator method call): it returns normally, raises an exception, diverges,
or the model ran out of fuel. -/
inductive Res where
  | ok
  | raised (e : Exc)
  | hang
  | fuelOut
deriving DecidableEq, Repr

/-- A consumer for the sink branch of `iter_filter` (lines 358-372): a
plain function that pulls from the supplied iterator.  `pull k kEnd` is a
`next(i)` call - `k v` continues with the pulled item, `kEnd` continues
after the iterator signals exhaustion (`StopIteration`).  `done` returns,
`raise e` raises.  (Consumers modelled here install no exception handlers
of their own, matching every consumer in the library's tests.) -/
inductive SinkCons where
  | pull (k : Val → SinkCons) (kEnd : SinkCons)
  | done
  | raise (e : Exc)

/-- A consumer for the filter branch of `iter_filter` (lines 337-357): a
generator function that pulls from the supplied iterator and yields output
items (`out`). -/
inductive FiltCons where
  | pull (k : Val → FiltCons) (kEnd : FiltCons)
  | out (v : Val) (k : FiltCons)
  | done
  | raise (e : Exc)

/-- Outcome of running a consumer to completion. -/
inductive EndRes where
  | fin
  | errE (e : Exc)
deriving DecidableEq, Repr

/-- Run a sink consumer once its input iterator is exhausted: every further
`next(i)` raises `StopIteration` inside the consumer immediately (the
bridge's `generator()` has returned), so the end continuation is taken
without any greenlet switch, until the consumer returns or raises. -/
def runSinkEnd : SinkCons → EndRes
  | .pull _ kEnd => runSinkEnd kEnd
  | .done => .fin
  | .raise e => .errE e

/-- Run a filter consumer during close handling after it received the
end-of-input marker (line 356-357: the `GeneratorExit` handler performs a
single `g_consume.switch(e)` and discards the result).  Pulls hit the
exhausted iterator and continue with the end continuation; the first
yielded output switches control back to the close handler, which abandons
the consumer; returning is fine; raising propagates out of the switch. -/
def closeRunEnd : FiltCons → EndRes
  | .pull _ kEnd => closeRunEnd kEnd
  | .out _ _ => .fin
  | .done => .fin
  | .raise e => .errE e

/-- Run a filter consumer during close handling when it was left suspended
at an output yield (its input iterator is still live): the single switch of
line 357 resumes it, and the very next suspension (a pull or another yield)
returns control to the handler, which abandons it. -/
def closeRunOut : FiltCons → EndRes
  | .pull _ _ => .fin
  | .out _ _ => .fin
  | .done => .fin
  | .raise e => .errE e

mutual
/-- Description of a stage constructor with its bound arguments - the state
a `PipeElement` (lines 265-269) carries before resolution.  `filtD f` is a
`pipefilter` stage whose body is `while True: item = yield;` followed by
sending `f item` on success or raising on error.  `recorderD` is a terminal
`pipefilter` stage that records every received value, records and re-raises
every injected failure, and records the close signal (an `appender`-style
observer).  `catcherD` is a stage whose body catches any `Exception` and
returns.  `closeRaiserD e` is a stage whose body catches `GeneratorExit`
and raises `e`.  `bcastD` is `broadcast(*targets)` (line 397) - its targets
are unresolved graph nodes, resolved lazily on first use.  `iterSinkD` /
`iterFiltD` are the two branches of `iter_filter` (line 299). -/
inductive StageDesc where
  | filtD (f : Val → Except Exc Val)
  | recorderD
  | catcherD
  | closeRaiserD (e : Exc)
  | bcastD (ts : List Node)
  | iterSinkD (c : SinkCons)
  | iterFiltD (c : FiltCons)

/-- A lazy graph node: a single stage (`PipeElement`) or a binary
composition (`Pipe`, lines 234-240). -/
inductive Node where
  | elem (d : StageDesc)
  | pipe (lhs rhs : Node)
end

/-- Suspension state of the consumer greenlet of an `iter_sink` stage:
waiting inside `generator()` for the next item, or dead (the consumer
function returned). -/
inductive SinkSt where
  | atPull (k : Val → SinkCons) (kEnd : SinkCons)
  | deadC

/-- Suspension state of the consumer greenlet of an `iter_filter` (filter
branch) stage: waiting for input, suspended at an output yield whose value
was discarded during priming (line 340), or dead. -/
inductive FiltSt where
  | atPullF (k : Val → FiltCons) (kEnd : FiltCons)
  | atOutF (k : FiltCons)
  | deadF

/-- A live (resolved, primed) stage together with the live downstream
chain it was bound to.  Every constructor carries a `term` flag: `true`
once the stage's generator frame has been torn down (it then answers
`send` with `StopIteration`, re-raises on `throw` and ignores `close`).
Broadcast targets are kept as `(cache, node)` pairs mirroring the
`Pipe`/`PipeElement` objects handed to `broadcast`: `cache = some p` once
the object's `send`/`throw`/`close` attributes were rebound to the live
stage `p` by the first resolution (lines 247-249, 281-283). -/
inductive LivePipe where
  | filtE (f : Val → Except Exc Val) (term : Bool) (tgt : Option LivePipe)
  | recorder (log : List TEv) (term : Bool)
  | catcher (term : Bool)
  | closeRaiser (e : Exc) (term : Bool)
  | bcast (term : Bool) (ts : List (Option LivePipe × Node))
  | iterSink (st : SinkSt) (term : Bool) (tgt : Option LivePipe)
  | iterFilt (st : FiltSt) (term : Bool) (tgt : Option LivePipe)

/-- A `Pipe` / `PipeElement` object as seen by callers of its
`send`/`throw`/`close` methods: the lazily-resolved live stage (rebound
method attributes), plus the immutable node description. -/
abbrev PObj := Option LivePipe × Node

/-- Result of a resolution (`Pipe.resolve` / `PipeElement.resolve`): a live
primed stage, or the exception raised while priming (possible for
`iter_filter` stages whose consumer raises before its first pull), or a
divergence / out-of-fuel marker. -/
inductive RRes where
  | good (p : LivePipe)
  | bad (e : Exc)
  | rhang
  | rout

/-- Intermediate result of the output-forwarding loop of the filter branch
(lines 352-355). -/
inductive DrainRes where
  | susp (st : FiltSt)
  | dErr (e : Exc)
  | dHang
  | dOut

mutual

/-- Lines 209-215 of `propagate_exceptions`: an exception `e` escaped the
stage body; if the stage was built with a `target` keyword, throw `e` into
the target, suppressing with a bare `except: pass` anything that throw
raises, then re-raise `e` to the stage's own caller.  (`e` is the
exception as it escaped the body's generator frame, i.e. already
PEP-479-converted by the caller.)  A hang inside the target's throw is a
real divergence and is not suppressed. -/
def fwd209 : Nat → Option LivePipe → Exc → Option LivePipe × Res
  | 0, t, _ => (t, .fuelOut)
  | _+1, none, e => (none, .raised e)
  | n+1, some t, e =>
    match throwL n t e with
    | (t', .hang) => (some t', .hang)
    | (t', .fuelOut) => (some t', .fuelOut)
    | (t', _) => (some t', .raised e)

/-- Lines 216-218 of `propagate_exceptions`: on `GeneratorExit`, after the
inner generator was closed, close the downstream target if there is one; an
exception raised by that close propagates out of the stage's `close`. -/
def closeTgt : Nat → Option LivePipe → Option LivePipe × Res
  | 0, t => (t, .fuelOut)
  | _+1, none => (none, .ok)
  | n+1, some t =>
    let r := closeL n t
    (some r.1, r.2)

/-- Output-forwarding loop of the filter branch of `iter_filter`
(lines 349-355), entered with the consumer just resumed: each yielded
output is sent downstream (when a target is bound) and the consumer resumed
again; a pull suspends the stage; the consumer raising, or the downstream
send raising, escapes the stage generator (PEP-479-converted).  If the
consumer returns, its greenlet dies and the loop never sees the sentinel
again: the Python code then loops forever re-sending the values that
switching to the dead greenlet bounces back (`dHang`). -/
def drainF : Nat → FiltCons → Option LivePipe → Option LivePipe × DrainRes
  | 0, _, t => (t, .dOut)
  | n+1, c, t =>
    match c with
    | .pull k kEnd => (t, .susp (.atPullF k kEnd))
    | .out w k =>
      match t with
      | none => drainF n k none
      | some tp =>
        match sendL n tp w with
        | (tp', .ok) => drainF n k (some tp')
        | (tp', .raised e) => (some tp', .dErr (pep479 e))
        | (tp', .hang) => (some tp', .dHang)
        | (tp', .fuelOut) => (some tp', .dOut)
    | .done => (t, .dHang)
    | .raise e => (t, .dErr (pep479 e))

/-- Like `drainF`, but after the consumer's input iterator has returned
(it received a `GeneratorExit` value, line 324-325): further pulls raise
`StopIteration` inside the consumer at once, taking the end continuation
without a greenlet switch. -/
def drainEnd : Nat → FiltCons → Option LivePipe → Option LivePipe × DrainRes
  | 0, _, t => (t, .dOut)
  | n+1, c, t =>
    match c with
    | .pull _ kEnd => drainEnd n kEnd t
    | .out w k =>
      match t with
      | none => drainEnd n k none
      | some tp =>
        match sendL n tp w with
        | (tp', .ok) => drainEnd n k (some tp')
        | (tp', .raised e) => (some tp', .dErr (pep479 e))
        | (tp', .hang) => (some tp', .dHang)
        | (tp', .fuelOut) => (some tp', .dOut)
    | .done => (t, .dHang)
    | .raise e => (t, .dErr (pep479 e))

/-- Failure fan-out loop of `broadcast` (lines 407-413 and 421-426):
throw `e` into each listed target in order; `except StopIteration: pass`
suppresses only a `StopIteration` from the throw (the target handled the
failure and finished), while a target that re-raises aborts the loop and
that exception escapes (`some (.raised e')`); `none` means the loop
finished all targets. -/
def bcFan : Nat → Exc → List (Option LivePipe × Node) → List (Option LivePipe × Node) × Option Res
  | 0, _, ts => (ts, some .fuelOut)
  | _+1, _, [] => ([], none)
  | n+1, e, t :: rest =>
    match pobjThrow n t e with
    | (t', .ok) | (t', .raised .stopIt) =>
      let r := bcFan n e rest
      (t' :: r.1, r.2)
    | (t', .raised e') => (t' :: rest, some (.raised e'))
    | (t', .hang) => (t' :: rest, some .hang)
    | (t', .fuelOut) => (t' :: rest, some .fuelOut)

/-- Value-delivery loop of `broadcast` (lines 416-427): send `v` to each
target in order (`pre` are the targets already delivered to); if a
target's send raises `e`, throw `e` into every other target - the loop
runs over the whole target list skipping the failing one, so first over
`pre`, then over the remainder - and finally re-raise `e`.  The raw
exception is returned; the caller applies the generator-frame escape
conversion. -/
def bcSend : Nat → Val → List (Option LivePipe × Node) → List (Option LivePipe × Node) → List (Option LivePipe × Node) × Res
  | 0, _, pre, rest => (pre ++ rest, .fuelOut)
  | _+1, _, pre, [] => (pre, .ok)
  | n+1, v, pre, t :: rest =>
    match pobjSend n t v with
    | (t', .ok) => bcSend n v (pre ++ [t']) rest
    | (t', .raised e) =>
      match bcFan n e pre with
      | (pre', some r) => (pre' ++ t' :: rest, r)
      | (pre', none) =>
        match bcFan n e rest with
        | (rest', some r) => (pre' ++ t' :: rest', r)
        | (rest', none) => (pre' ++ t' :: rest', .raised e)
    | (t', .hang) => (pre ++ t' :: rest, .hang)
    | (t', .fuelOut) => (pre ++ t' :: rest, .fuelOut)

/-- Close loop of `broadcast` (lines 428-430): `for target in targets:
target.close()` with no handler around the close - the first close that
raises aborts the loop, leaving the remaining targets unclosed, and the
exception escapes. -/
def bcClose : Nat → List (Option LivePipe × Node) → List (Option LivePipe × Node) × Res
  | 0, ts => (ts, .fuelOut)
  | _+1, [] => ([], .ok)
  | n+1, t :: rest =>
    match pobjClose n t with
    | (t', .ok) =>
      let r := bcClose n rest
      (t' :: r.1, r.2)
    | (t', r) => (t' :: rest, r)

/-- The `send` method of a `Pipe` / `PipeElement` object (lines 252-254,
286-288): before the first resolution it resolves the node (an exception
raised while resolving propagates and the attributes stay unbound), then
the call reaches the live head stage; afterwards the rebound attribute
dispatches directly to the live stage. -/
def pobjSend : Nat → PObj → Val → PObj × Res
  | 0, p, _ => (p, .fuelOut)
  | n+1, (some live, nd), v =>
    let r := sendL n live v
    ((some r.1, nd), r.2)
  | n+1, (none, nd), v =>
    match resolveN n nd none with
    | .good live =>
      let r := sendL n live v
      ((some r.1, nd), r.2)
    | .bad e => ((none, nd), .raised e)
    | .rhang => ((none, nd), .hang)
    | .rout => ((none, nd), .fuelOut)

/-- The `throw` method of a `Pipe` / `PipeElement` object (lines 256-258,
290-292). -/
def pobjThrow : Nat → PObj → Exc → PObj × Res
  | 0, p, _ => (p, .fuelOut)
  | n+1, (some live, nd), e =>
    let r := throwL n live e
    ((some r.1, nd), r.2)
  | n+1, (none, nd), e =>
    match resolveN n nd none with
    | .good live =>
      let r := throwL n live e
      ((some r.1, nd), r.2)
    | .bad e' => ((none, nd), .raised e')
    | .rhang => ((none, nd), .hang)
    | .rout => ((none, nd), .fuelOut)

/-- The `close` method of a `Pipe` / `PipeElement` object (lines 260-262,
294-296). -/
def pobjClose : Nat → PObj → PObj × Res
  | 0, p => (p, .fuelOut)
  | n+1, (some live, nd) =>
    let r := closeL n live
    ((some r.1, nd), r.2)
  | n+1, (none, nd) =>
    match resolveN n nd none with
    | .good live =>
      let r := closeL n live
      ((some r.1, nd), r.2)
    | .bad e' => ((none, nd), .raised e')
    | .rhang => ((none, nd), .hang)
    | .rout => ((none, nd), .fuelOut)

/-- `Pipe.resolve` / `PipeElement.resolve` (lines 245-250, 277-284):
a composition resolves its right-hand side first, then the left-hand side
bound to the result; a leaf invokes its stage constructor with the target
bound in, priming the coroutine to its first suspension point. -/
def resolveN : Nat → Node → Option LivePipe → RRes
  | 0, _, _ => .rout
  | n+1, .pipe l r, t =>
    match resolveN n r t with
    | .good rl => resolveN n l (some rl)
    | x => x
  | n+1, .elem d, t => prime n d t

/-- Constructing and priming one live stage (`coroutine`'s `next(cr)`,
lines 132-140, applied to the `propagate_exceptions`-wrapped body).  Plain
filter bodies suspend immediately.  An `iter_filter` stage starts its
consumer greenlet during priming (lines 339-340, 360-361): a consumer that
pulls suspends normally; one that returns leaves a dead greenlet; a filter
consumer that yields before pulling has that first output discarded; one
that raises makes the priming `next` raise - after line 209 forwards the
exception to the bound target - so resolution itself fails. -/
def prime : Nat → StageDesc → Option LivePipe → RRes
  | 0, _, _ => .rout
  | _+1, .filtD f, t => .good (.filtE f false t)
  | _+1, .recorderD, _ => .good (.recorder [] false)
  | _+1, .catcherD, _ => .good (.catcher false)
  | _+1, .closeRaiserD e, _ => .good (.closeRaiser e false)
  | _+1, .bcastD ns, _ => .good (.bcast false (ns.map fun nd => (none, nd)))
  | n+1, .iterSinkD c, t =>
    match c with
    | .pull k kEnd => .good (.iterSink (.atPull k kEnd) false t)
    | .done => .good (.iterSink .deadC false t)
    | .raise e =>
      match fwd209 n t (pep479 e) with
      | (_, .raised e') => .bad e'
      | (_, .hang) => .rhang
      | (_, .fuelOut) => .rout
      | (_, .ok) => .bad (pep479 e)
  | n+1, .iterFiltD c, t =>
    match c with
    | .pull k kEnd => .good (.iterFilt (.atPullF k kEnd) false t)
    | .out _ k => .good (.iterFilt (.atOutF k) false t)
    | .done => .good (.iterFilt .deadF false t)
    | .raise e =>
      match fwd209 n t (pep479 e) with
      | (_, .raised e') => .bad e'
      | (_, .hang) => .rhang
      | (_, .fuelOut) => .rout
      | (_, .ok) => .bad (pep479 e)

/-- Delivering a value to a live stage: `gen.send(v)` on the
`propagate_exceptions`-wrapped generator.  A terminated generator raises
`StopIteration`.  Otherwise the inner body is resumed with `v` and run to
its next suspension; an exception escaping the body is PEP-479-converted,
forwarded to the bound target (lines 209-215) and re-raised, terminating
the stage. -/
def sendL : Nat → LivePipe → Val → LivePipe × Res
  | 0, p, _ => (p, .fuelOut)
  | n+1, p, v =>
    match p with
    | .filtE f true tgt => (.filtE f true tgt, .raised .stopIt)
    | .filtE f false tgt =>
      match f v with
      | .error e =>
        let r := fwd209 n tgt (pep479 e)
        (.filtE f true r.1, r.2)
      | .ok w =>
        match tgt with
        | none => (.filtE f false none, .ok)
        | some t =>
          match sendL n t w with
          | (t', .ok) => (.filtE f false (some t'), .ok)
          | (t', .raised e) =>
            let r := fwd209 n (some t') (pep479 e)
            (.filtE f true r.1, r.2)
          | (t', .hang) => (.filtE f false (some t'), .hang)
          | (t', .fuelOut) => (.filtE f false (some t'), .fuelOut)
    | .recorder log true => (.recorder log true, .raised .stopIt)
    | .recorder log false => (.recorder (log ++ [.got v]) false, .ok)
    | .catcher true => (.catcher true, .raised .stopIt)
    | .catcher false => (.catcher false, .ok)
    | .closeRaiser e true => (.closeRaiser e true, .raised .stopIt)
    | .closeRaiser e false => (.closeRaiser e false, .ok)
    | .bcast true ts => (.bcast true ts, .raised .stopIt)
    | .bcast false ts =>
      match bcSend n v [] ts with
      | (ts', .ok) => (.bcast false ts', .ok)
      | (ts', .raised e) => (.bcast true ts', .raised (pep479 e))
      | (ts', .hang) => (.bcast false ts', .hang)
      | (ts', .fuelOut) => (.bcast false ts', .fuelOut)
    | .iterSink st true tgt => (.iterSink st true tgt, .raised .stopIt)
    | .iterSink .deadC false tgt => (.iterSink .deadC false tgt, .ok)
    | .iterSink (.atPull k kEnd) false tgt =>
      if v = .gexit then
        match runSinkEnd kEnd with
        | .fin => (.iterSink .deadC false tgt, .ok)
        | .errE e =>
          let r := fwd209 n tgt (pep479 e)
          (.iterSink .deadC true r.1, r.2)
      else
        match k v with
        | .pull k' kEnd' => (.iterSink (.atPull k' kEnd') false tgt, .ok)
        | .done => (.iterSink .deadC false tgt, .ok)
        | .raise e =>
          let r := fwd209 n tgt (pep479 e)
          (.iterSink .deadC true r.1, r.2)
    | .iterFilt st true tgt => (.iterFilt st true tgt, .raised .stopIt)
    | .iterFilt .deadF false tgt => (.iterFilt .deadF false tgt, .hang)
    | .iterFilt (.atPullF k kEnd) false tgt =>
      if v = .gexit then
        match drainEnd n kEnd tgt with
        | (t', .susp st) => (.iterFilt st false t', .ok)
        | (t', .dErr e) =>
          let r := fwd209 n t' e
          (.iterFilt .deadF true r.1, r.2)
        | (t', .dHang) => (.iterFilt .deadF false t', .hang)
        | (t', .dOut) => (.iterFilt .deadF false t', .fuelOut)
      else
        match drainF n (k v) tgt with
        | (t', .susp st) => (.iterFilt st false t', .ok)
        | (t', .dErr e) =>
          let r := fwd209 n t' e
          (.iterFilt .deadF true r.1, r.2)
        | (t', .dHang) => (.iterFilt .deadF false t', .hang)
        | (t', .dOut) => (.iterFilt .deadF false t', .fuelOut)
    | .iterFilt (.atOutF k) false tgt =>
      match drainF n k tgt with
      | (t', .susp st) => (.iterFilt st false t', .ok)
      | (t', .dErr e) =>
        let r := fwd209 n t' e
        (.iterFilt .deadF true r.1, r.2)
      | (t', .dHang) => (.iterFilt .deadF false t', .hang)
      | (t', .dOut) => (.iterFilt .deadF false t', .fuelOut)

/-- Delivering a failure: `gen.throw(e)`.  A terminated generator
re-raises `e`.  Otherwise `e` is injected at the body's suspension point
(lines 189-199): a plain filter body does not handle it, so after the
line-209 forwarding the stage re-raises `e`; a recorder logs and
re-raises; a body that catches the exception and returns makes the
caller's `throw` raise `StopIteration`; `broadcast` fans the failure out
to all targets (lines 405-414); an `iter_filter` stage throws into the
consumer greenlet - whether the consumer is suspended mid-pull or already
dead, the exception resurfaces in the bridge (the greenlet runtime raises
it in the caller when the greenlet is dead) and escapes the stage. -/
def throwL : Nat → LivePipe → Exc → LivePipe × Res
  | 0, p, _ => (p, .fuelOut)
  | n+1, p, e =>
    match p with
    | .filtE f true tgt => (.filtE f true tgt, .raised e)
    | .filtE f false tgt =>
      let r := fwd209 n tgt (pep479 e)
      (.filtE f true r.1, r.2)
    | .recorder log true => (.recorder log true, .raised e)
    | .recorder log false => (.recorder (log ++ [.failed e]) true, .raised (pep479 e))
    | .catcher true => (.catcher true, .raised e)
    | .catcher false => (.catcher true, .raised .stopIt)
    | .closeRaiser e0 true => (.closeRaiser e0 true, .raised e)
    | .closeRaiser e0 false => (.closeRaiser e0 true, .raised (pep479 e))
    | .bcast true ts => (.bcast true ts, .raised e)
    | .bcast false ts =>
      match bcFan n e ts with
      | (ts', some (.raised e')) => (.bcast true ts', .raised (pep479 e'))
      | (ts', some .hang) => (.bcast true ts', .hang)
      | (ts', some .fuelOut) => (.bcast true ts', .fuelOut)
      | (ts', some .ok) => (.bcast true ts', .raised (pep479 e))
      | (ts', none) => (.bcast true ts', .raised (pep479 e))
    | .iterSink st true tgt => (.iterSink st true tgt, .raised e)
    | .iterSink st false tgt =>
      let r := fwd209 n tgt (pep479 e)
      (.iterSink st true r.1, r.2)
    | .iterFilt st true tgt => (.iterFilt st true tgt, .raised e)
    | .iterFilt st false tgt =>
      let r := fwd209 n tgt (pep479 e)
      (.iterFilt st true r.1, r.2)

/-- Delivering close: `gen.close()`.  A terminated generator ignores it.
Otherwise `GeneratorExit` is raised at the body's suspension point
(lines 181-188): the inner generator is closed first - running any
`GeneratorExit` handler it has - and then the downstream target is closed
(lines 216-218).  An exception raised while closing the inner generator is
forwarded via line 209 and escapes the stage's `close`, and the downstream
target is then NOT closed.  An `iter_filter` stage hands the
`GeneratorExit` instance to the consumer greenlet with a single switch
(lines 356-357, 371-372). -/
def closeL : Nat → LivePipe → LivePipe × Res
  | 0, p => (p, .fuelOut)
  | n+1, p =>
    match p with
    | .filtE f true tgt => (.filtE f true tgt, .ok)
    | .filtE f false tgt =>
      let r := closeTgt n tgt
      (.filtE f true r.1, r.2)
    | .recorder log true => (.recorder log true, .ok)
    | .recorder log false => (.recorder (log ++ [.closedEv]) true, .ok)
    | .catcher _ => (.catcher true, .ok)
    | .closeRaiser e true => (.closeRaiser e true, .ok)
    | .closeRaiser e false => (.closeRaiser e true, .raised (pep479 e))
    | .bcast true ts => (.bcast true ts, .ok)
    | .bcast false ts =>
      match bcClose n ts with
      | (ts', .ok) => (.bcast true ts', .ok)
      | (ts', .raised e) => (.bcast true ts', .raised (pep479 e))
      | (ts', .hang) => (.bcast true ts', .hang)
      | (ts', .fuelOut) => (.bcast true ts', .fuelOut)
    | .iterSink st true tgt => (.iterSink st true tgt, .ok)
    | .iterSink .deadC false tgt =>
      let r := closeTgt n tgt
      (.iterSink .deadC true r.1, r.2)
    | .iterSink (.atPull _ kEnd) false tgt =>
      match runSinkEnd kEnd with
      | .fin =>
        let r := closeTgt n tgt
        (.iterSink .deadC true r.1, r.2)
      | .errE e =>
        let r := fwd209 n tgt (pep479 e)
        (.iterSink .deadC true r.1, r.2)
    | .iterFilt st true tgt => (.iterFilt st true tgt, .ok)
    | .iterFilt .deadF false tgt =>
      let r := closeTgt n tgt
      (.iterFilt .deadF true r.1, r.2)
    | .iterFilt (.atPullF _ kEnd) false tgt =>
      match closeRunEnd kEnd with
      | .fin =>
        let r := closeTgt n tgt
        (.iterFilt .deadF true r.1, r.2)
      | .errE e =>
        let r := fwd209 n tgt (pep479 e)
        (.iterFilt .deadF true r.1, r.2)
    | .iterFilt (.atOutF k) false tgt =>
      match closeRunOut k with
      | .fin =>
        let r := closeTgt n tgt
        (.iterFilt .deadF true r.1, r.2)
      | .errE e =>
        let r := fwd209 n tgt (pep479 e)
        (.iterFilt .deadF true r.1, r.2)

end

/-- The send loop of `iter_source` (lines 384-392): push each value into
the target; if a send raises, throw that exception into the target
(suppressing only `StopIteration`, lines 388-391) and re-raise it - an
exception other than `StopIteration` coming out of the recovery throw
replaces the original. -/
def srcLoop (n : Nat) : List Val → PObj → PObj × Res
  | [], t => (t, .ok)
  | v :: vs, t =>
    match pobjSend n t v with
    | (t', .ok) => srcLoop n vs t'
    | (t', .raised e) =>
      match pobjThrow n t' e with
      | (t'', .ok) => (t'', .raised e)
      | (t'', .raised .stopIt) => (t'', .raised e)
      | (t'', .raised e') => (t'', .raised e')
      | (t'', .hang) => (t'', .hang)
      | (t'', .fuelOut) => (t'', .fuelOut)
    | (t', .hang) => (t', .hang)
    | (t', .fuelOut) => (t', .fuelOut)

/-- The whole `iter_source` body (lines 380-394): the send loop followed -
only on normal completion - by `target.close()` (line 394 sits outside the
`try`, so it is skipped when the loop raises). -/
def iterSourceFn (n : Nat) (values : List Val) (t : PObj) : PObj × Res :=
  match srcLoop n values t with
  | (t', .ok) => pobjClose n t'
  | r => r

/-- `iter_source(values) | node`: `PipeSource.__or__` (lines 228-231) runs
the source body against the unresolved right-hand node and, only if it
returned normally, closes the node a second time (line 230). -/
def pipeOr (n : Nat) (values : List Val) (other : Node) : PObj × Res :=
  match iterSourceFn n values (none, other) with
  | (t', .ok) => pobjClose n t'
  | r => r

/-- The event log of the terminal recorder at the end of a chain of
single-target stages. -/
def recLog : LivePipe → List TEv
  | .recorder log _ => log
  | .filtE _ _ (some t) => recLog t
  | .iterSink _ _ (some t) => recLog t
  | .iterFilt _ _ (some t) => recLog t
  | _ => []

/-- The terminal recorder log reachable from a `Pipe`/`PipeElement`
object, empty while unresolved. -/
def headLog (p : PObj) : List TEv :=
  match p.1 with
  | some live => recLog live
  | none => []

/-- The values a recorder log received. -/
def gotVals (l : List TEv) : List Val :=
  l.filterMap fun ev =>
    match ev with
    | .got v => some v
    | _ => none

/-- Per-target terminal logs of a broadcast stage. -/
def bcLogs : LivePipe → List (List TEv)
  | .bcast _ ts =>
    ts.map fun t =>
      match t.1 with
      | some live => recLog live
      | none => []
  | _ => []

/-! Chains of pure per-item transformation stages, as built by
`iter_source(S) | (stage1() | (stage2() | ... | recorder()))`. -/

/-- A pure `pipefilter` transformation stage: its body is
`while True: item = (yield); target.send(f(item))`. -/
def pureStage (f : Val → Val) : StageDesc :=
  .filtD fun v => .ok (f v)

/-- The unresolved pipeline node for a chain of pure stages ending in a
recording terminal. -/
def chainNode : List (Val → Val) → Node
  | [] => .elem .recorderD
  | f :: fs => .pipe (.elem (pureStage f)) (chainNode fs)

/-- The live chain produced by resolving `chainNode fs`, with terminal
log `log`. -/
def chainLive : List (Val → Val) → List TEv → LivePipe
  | [], log => .recorder log false
  | f :: fs, log => .filtE (fun v => .ok (f v)) false (some (chainLive fs log))

/-- The same chain after close: every stage terminated. -/
def chainDead : List (Val → Val) → List TEv → LivePipe
  | [], log => .recorder log true
  | f :: fs, log => .filtE (fun v => .ok (f v)) true (some (chainDead fs log))

/-- Composition of the per-item functions in chain order (the first listed
stage is applied first). -/
def compChain : List (Val → Val) → Val → Val
  | [], v => v
  | f :: fs, v => compChain fs (f v)

/-- Number of close events in a terminal log. -/
def closeCount : List TEv → Nat
  | [] => 0
  | .closedEv :: l => closeCount l + 1
  | _ :: l => closeCount l

/-- A pipeline whose single transformation stage raises `err 7` on every
value, ending in a recording terminal. -/
def c5FailNode : Node :=
  .pipe (.elem (.filtD fun _ => .error (.err 7))) (.elem .recorderD)

/-- A placeholder node for the immutable `node` component of an
already-resolved target object (its value is irrelevant once the cache is
set). -/
def dmyNode : Node := .elem .recorderD

/-- A live broadcast over three targets: the first raises `err 9` on
every accepted value, the second and third are recording terminals. -/
def c2Broadcast : LivePipe :=
  .bcast false
    [(some (.filtE (fun _ => .error (.err 9)) false none), dmyNode),
     (some (.recorder [] false), dmyNode),
     (some (.recorder [] false), dmyNode)]

/-- A live broadcast whose first target raises `err 2` on close (its body
catches `GeneratorExit` and raises) and whose second target is a
recording terminal. -/
def c6Broadcast : LivePipe :=
  .bcast false
    [(some (.closeRaiser (.err 2) false), dmyNode),
     (some (.recorder [] false), dmyNode)]

/-- Number of stage-constructor invocations (`self.fn(*self.args,
**self.kwargs)`, lines 229, 280) performed by one full resolution walk of
a node: `Pipe.resolve` and `PipeElement.resolve` have no
already-resolved guard, so every walk re-runs every leaf's constructor
(right-hand side first). -/
def elemCount : Node → Nat
  | .elem _ => 1
  | .pipe l r => elemCount r + elemCount l

/-- An explicit `resolve()` call on a `Pipe` / `PipeElement` object
(lines 245-250, 277-284): it unconditionally re-walks the node -
regardless of whether the `send`/`throw`/`close` attributes were already
rebound - and rebinds them to the freshly constructed live chain. -/
def pobjResolve (n : Nat) (p : PObj) : PObj × RRes :=
  match resolveN n p.2 none with
  | .good live => ((some live, p.2), .good live)
  | x => (p, x)

/-- Constructor invocations performed by a `resolve()` call on a node all
of whose stage constructors prime successfully: the walk always reaches
every leaf (there is no cache consult in lines 245-250). -/
def resolveCallCount (p : PObj) : Nat := elemCount p.2

/-- Constructor invocations performed by a `send`/`throw`/`close` call:
after the first resolution these methods are the rebound live-generator
attributes (lines 247-249, 281-283) and construct nothing; before it, the
implicit `resolve()` walks the whole node. -/
def methodCallCount (p : PObj) : Nat :=
  match p.1 with
  | some _ => 0
  | none => elemCount p.2

/-- A one-stage node (an identity transformation stage). -/
def c4Node : Node := .elem (pureStage fun v => v)

/-- A bridged sink whose consumer raises `err 3` on entry, before pulling
any item. -/
def c7ImmediateNode : Node := .elem (.iterSinkD (.raise (.err 3)))

/-- A bridged sink consumer that pulls every available item and raises
`err 4` after the end of input (its end continuation raises). -/
def c7AfterEndCons : SinkCons :=
  .pull (fun _ => .pull (fun _ => .done) (.raise (.err 4))) (.raise (.err 4))

/-- The pipeline node bridging `c7AfterEndCons`. -/
def c7AfterEndNode : Node := .elem (.iterSinkD c7AfterEndCons)

/-- A live bridged sink whose consumer returns after pulling one item. -/
def c8Stage : LivePipe := .iterSink (.atPull (fun _ => .done) .done) false none

/-- The family of bridged sink consumers that consume every available
input item and then raise: at each step the consumer is at a pull,
receives the (non-end-marker) item and continues pulling; when the input
is exhausted, running its end continuation raises `e`. -/
inductive RaisesAfter : SinkCons → List Val → Exc → Prop where
  | base {k : Val → SinkCons} {kEnd : SinkCons} {e : Exc}
      (h : runSinkEnd kEnd = .errE e) : RaisesAfter (.pull k kEnd) [] e
  | step {k : Val → SinkCons} {kEnd : SinkCons} {v : Val} {vs : List Val} {e : Exc}
      (hv : v ≠ .gexit) (h : RaisesAfter (k v) vs e) :
      RaisesAfter (.pull k kEnd) (v :: vs) e

/-- The family of bridged filter consumers that consume every available
input item - possibly yielding outputs between pulls - and, once the
input is exhausted, raise `e` before yielding any further output
(`closeRunEnd` ends in `errE`).  The `Nat` index bounds the length of any
chain of consecutive outputs, which is the fuel the forwarding loop of
lines 352-355 spends walking them; the stages considered have no
downstream target bound, so yielded outputs are skipped by the guard of
line 353. -/
inductive FRaisesAfter : Nat → FiltCons → List Val → Exc → Prop where
  | base {b : Nat} {k : Val → FiltCons} {kEnd : FiltCons} {e : Exc}
      (h : closeRunEnd kEnd = .errE e) : FRaisesAfter b (.pull k kEnd) [] e
  | step {b : Nat} {k : Val → FiltCons} {kEnd : FiltCons} {v : Val} {vs : List Val} {e : Exc}
      (hv : v ≠ .gexit) (h : FRaisesAfter b (k v) vs e) :
      FRaisesAfter b (.pull k kEnd) (v :: vs) e
  | out {b : Nat} {k : FiltCons} {w : Val} {S : List Val} {e : Exc}
      (h : FRaisesAfter b k S e) : FRaisesAfter (b + 1) (.out w k) S e

/-- A filter-branch consumer that pulls every available item (forwarding
it) and, after the end of input, yields one further output before raising
`err 5`. -/
def c7LateYieldCons : FiltCons :=
  .pull (fun v => .out v (.pull (fun _ => .done) (.out (.n 99) (.raise (.err 5)))))
        (.out (.n 99) (.raise (.err 5)))

/-- The pipeline node bridging `c7LateYieldCons` into a chain ending in a
recording terminal. -/
def c7LateYieldNode : Node :=
  .pipe (.elem (.iterFiltD c7LateYieldCons)) (.elem .recorderD)

/-- A filter-branch consumer that pulls every available item (forwarding
it) and raises `err 5` as soon as the end of input is signalled, before
yielding anything further. -/
def c7FiltAfterEndCons : FiltCons :=
  .pull (fun v => .out v (.pull (fun _ => .done) (.raise (.err 5)))) (.raise (.err 5))

theorem resolveN_chain (fs : List (Val → Val)) (n : Nat) :
    resolveN (n + fs.length + 2) (chainNode fs) none = .good (chainLive fs []) := by
  induction fs generalizing n with
  | nil => rfl
  | cons f fs ih =>
    show resolveN (n + fs.length + 2 + 1) (.pipe (.elem (pureStage f)) (chainNode fs)) none = _
    rw [resolveN, ih n]
    rfl

theorem sendL_chain (fs : List (Val → Val)) (log : List TEv) (v : Val) (n : Nat) :
    sendL (n + fs.length + 1) (chainLive fs log) v
      = (chainLive fs (log ++ [.got (compChain fs v)]), .ok) := by
  induction fs generalizing log v n with
  | nil => rfl
  | cons f fs ih =>
    show sendL (n + fs.length + 1 + 1) (.filtE (fun v => .ok (f v)) false (some (chainLive fs log))) v = _
    rw [sendL]
    simp only [chainLive, compChain, ih log (f v) n]

theorem closeL_chain (fs : List (Val → Val)) (log : List TEv) (n : Nat) :
    closeL (n + 2 * fs.length + 1) (chainLive fs log)
      = (chainDead fs (log ++ [.closedEv]), .ok) := by
  induction fs generalizing log n with
  | nil => rfl
  | cons f fs ih =>
    show closeL (n + 2 * fs.length + 2 + 1) (.filtE (fun v => .ok (f v)) false (some (chainLive fs log))) = _
    rw [closeL, closeTgt, ih log n]
    rfl

theorem closeL_chainDead (fs : List (Val → Val)) (log : List TEv) (n : Nat) :
    closeL (n + 1) (chainDead fs log) = (chainDead fs log, .ok) := by
  cases fs <;> rfl

theorem srcLoop_chain (fs : List (Val → Val)) (S : List Val) (log : List TEv)
    (nd : Node) (n : Nat) :
    srcLoop (n + fs.length + 2) S ((some (chainLive fs log), nd) : PObj)
      = ((some (chainLive fs (log ++ S.map fun v => .got (compChain fs v))), nd), .ok) := by
  induction S generalizing log with
  | nil => simp [srcLoop]
  | cons v vs ih =>
    rw [srcLoop]
    have hs : pobjSend (n + fs.length + 2) ((some (chainLive fs log), nd) : PObj) v
        = ((some (chainLive fs (log ++ [.got (compChain fs v)])), nd), .ok) := by
      show pobjSend (n + fs.length + 1 + 1) _ _ = _
      rw [pobjSend, sendL_chain fs log v n]
    rw [hs]
    show srcLoop (n + fs.length + 2) vs ((some (chainLive fs (log ++ [.got (compChain fs v)])), nd) : PObj) = _
    refine (ih (log ++ [TEv.got (compChain fs v)])).trans ?_
    simp

/-- Running `iter_source(S) | chain` for a chain of pure stages: the run
completes normally and leaves the terminal recorder holding exactly the
images of `S` under the composed per-item functions, followed by a single
close event (the second close of `PipeSource.__or__`, line 230, hits an
already-terminated generator and is a no-op). -/
theorem pipeOr_chain (fs : List (Val → Val)) (S : List Val) (n : Nat) :
    pipeOr (n + 2 * fs.length + 4) S (chainNode fs)
      = ((some (chainDead fs ((S.map fun v => .got (compChain fs v)) ++ [.closedEv])), chainNode fs), .ok) := by
  have hres : resolveN (n + 2 * fs.length + 3) (chainNode fs) none = .good (chainLive fs []) := by
    have h := resolveN_chain fs (n + fs.length + 1)
    rwa [show n + fs.length + 1 + fs.length + 2 = n + 2 * fs.length + 3 from by omega] at h
  have hclose : ∀ log, closeL (n + 2 * fs.length + 3) (chainLive fs log)
      = (chainDead fs (log ++ [.closedEv]), .ok) := by
    intro log
    have h := closeL_chain fs log (n + 2)
    rwa [show n + 2 + 2 * fs.length + 1 = n + 2 * fs.length + 3 from by omega] at h
  cases S with
  | nil =>
    have hc1 : pobjClose (n + 2 * fs.length + 4) ((none, chainNode fs) : PObj)
        = ((some (chainDead fs [TEv.closedEv]), chainNode fs), .ok) := by
      show pobjClose (n + 2 * fs.length + 3 + 1) _ = _
      rw [pobjClose, hres]
      show ((some (closeL (n + 2 * fs.length + 3) (chainLive fs [])).1, chainNode fs),
        (closeL (n + 2 * fs.length + 3) (chainLive fs [])).2) = _
      rw [hclose []]
      rfl
    have hc2 : pobjClose (n + 2 * fs.length + 4)
        ((some (chainDead fs [TEv.closedEv]), chainNode fs) : PObj)
        = ((some (chainDead fs [TEv.closedEv]), chainNode fs), .ok) := by
      show pobjClose (n + 2 * fs.length + 3 + 1) _ = _
      rw [pobjClose, closeL_chainDead fs _ (n + 2 * fs.length + 2)]
    rw [pipeOr, iterSourceFn, srcLoop]
    simp only [hc1, hc2]
    simp
  | cons v vs =>
    have hsend : sendL (n + 2 * fs.length + 3) (chainLive fs []) v
        = (chainLive fs [.got (compChain fs v)], .ok) := by
      have h := sendL_chain fs [] v (n + fs.length + 2)
      rwa [show n + fs.length + 2 + fs.length + 1 = n + 2 * fs.length + 3 from by omega,
        List.nil_append] at h
    have hloop : srcLoop (n + 2 * fs.length + 4) vs
        ((some (chainLive fs [.got (compChain fs v)]), chainNode fs) : PObj)
        = ((some (chainLive fs ([.got (compChain fs v)] ++ vs.map fun w => .got (compChain fs w))),
            chainNode fs), .ok) := by
      have h := srcLoop_chain fs vs [.got (compChain fs v)] (chainNode fs) (n + fs.length + 2)
      rwa [show n + fs.length + 2 + fs.length + 2 = n + 2 * fs.length + 4 from by omega] at h
    have hps : pobjSend (n + 2 * fs.length + 4) ((none, chainNode fs) : PObj) v
        = ((some (chainLive fs [.got (compChain fs v)]), chainNode fs), .ok) := by
      show pobjSend (n + 2 * fs.length + 3 + 1) _ _ = _
      rw [pobjSend, hres]
      show ((some (sendL (n + 2 * fs.length + 3) (chainLive fs []) v).1, chainNode fs),
        (sendL (n + 2 * fs.length + 3) (chainLive fs []) v).2) = _
      rw [hsend]
    have hc1 : pobjClose (n + 2 * fs.length + 4)
        ((some (chainLive fs ([.got (compChain fs v)] ++ vs.map fun w => .got (compChain fs w))),
          chainNode fs) : PObj)
        = ((some (chainDead fs (([TEv.got (compChain fs v)] ++ vs.map fun w => TEv.got (compChain fs w))
            ++ [.closedEv])), chainNode fs), .ok) := by
      show pobjClose (n + 2 * fs.length + 3 + 1) _ = _
      rw [pobjClose, hclose]
    have hc2 : pobjClose (n + 2 * fs.length + 4)
        ((some (chainDead fs (([TEv.got (compChain fs v)] ++ vs.map fun w => TEv.got (compChain fs w))
          ++ [.closedEv])), chainNode fs) : PObj)
        = ((some (chainDead fs (([TEv.got (compChain fs v)] ++ vs.map fun w => TEv.got (compChain fs w))
            ++ [.closedEv])), chainNode fs), .ok) := by
      show pobjClose (n + 2 * fs.length + 3 + 1) _ = _
      rw [pobjClose, closeL_chainDead fs _ (n + 2 * fs.length + 2)]
    rw [pipeOr, iterSourceFn, srcLoop]
    simp only [hps, hloop, hc1, hc2]
    simp

theorem recLog_chainDead (fs : List (Val → Val)) (log : List TEv) :
    recLog (chainDead fs log) = log := by
  induction fs with
  | nil => rfl
  | cons f fs ih => simpa [chainDead, recLog] using ih

theorem gotVals_map_got (S : List Val) (g : Val → Val) :
    gotVals ((S.map fun v => .got (g v)) ++ [.closedEv]) = S.map g := by
  induction S with
  | nil => rfl
  | cons v vs ih => simpa [gotVals] using ih

theorem closeCount_map_got (S : List Val) (g : Val → Val) :
    closeCount ((S.map fun v => .got (g v)) ++ [.closedEv]) = 1 := by
  induction S with
  | nil => rfl
  | cons v vs ih => simpa [closeCount] using ih

theorem pep479_pep479 (e : Exc) : pep479 (pep479 e) = pep479 e := by
  cases e <;> rfl

theorem raisesAfter_pull {c : SinkCons} {S : List Val} {e : Exc} (h : RaisesAfter c S e) :
    ∃ k kEnd, c = .pull k kEnd := by
  cases h with
  | base h => exact ⟨_, _, rfl⟩
  | step hv h => exact ⟨_, _, rfl⟩

theorem fraisesAfter_drain {b : Nat} {c : FiltCons} {S : List Val} {e : Exc}
    (h : FRaisesAfter b c S e) :
    ∀ f : Nat, b + 1 ≤ f →
      ∃ k2 kEnd2 b2, b2 ≤ b ∧ FRaisesAfter b2 (.pull k2 kEnd2) S e ∧
        drainF f c none = (none, .susp (.atPullF k2 kEnd2)) := by
  induction h with
  | base hE =>
    intro f hf
    obtain ⟨f1, rfl⟩ : ∃ f1, f = f1 + 1 := ⟨f - 1, by omega⟩
    exact ⟨_, _, _, Nat.le_refl _, .base hE, rfl⟩
  | step hv hsub =>
    intro f hf
    obtain ⟨f1, rfl⟩ : ∃ f1, f = f1 + 1 := ⟨f - 1, by omega⟩
    exact ⟨_, _, _, Nat.le_refl _, .step hv hsub, rfl⟩
  | out hsub ih =>
    intro f hf
    obtain ⟨f1, rfl⟩ : ∃ f1, f = f1 + 1 := ⟨f - 1, by omega⟩
    obtain ⟨k2, kEnd2, b2, hb2, hder, hdr⟩ := ih f1 (by omega)
    refine ⟨k2, kEnd2, b2, by omega, hder, ?_⟩
    show drainF (f1 + 1) (.out _ _) none = _
    rw [drainF]
    exact hdr

theorem srcLoop_sink_raisesAfter (S : List Val) :
    ∀ (k : Val → SinkCons) (kEnd : SinkCons) (e : Exc) (nd : Node) (n : Nat),
      RaisesAfter (.pull k kEnd) S e →
      ∃ k2 kEnd2,
        srcLoop (n + 2) S ((some (.iterSink (.atPull k kEnd) false none), nd) : PObj)
            = ((some (.iterSink (.atPull k2 kEnd2) false none), nd), .ok)
          ∧ runSinkEnd kEnd2 = .errE e := by
  induction S with
  | nil =>
    intro k kEnd e nd n h
    cases h with
    | base hE => exact ⟨k, kEnd, rfl, hE⟩
  | cons v vs ih =>
    intro k kEnd e nd n h
    cases h with
    | step hv hsub =>
      obtain ⟨k2, kEnd2, hk⟩ := raisesAfter_pull hsub
      rw [hk] at hsub
      have hs : sendL (n + 1) (.iterSink (.atPull k kEnd) false none) v
          = (.iterSink (.atPull k2 kEnd2) false none, .ok) := by
        simp only [sendL]
        rw [if_neg hv, hk]
      have hsend : pobjSend (n + 2) ((some (.iterSink (.atPull k kEnd) false none), nd) : PObj) v
          = ((some (.iterSink (.atPull k2 kEnd2) false none), nd), .ok) := by
        show pobjSend (n + 1 + 1) _ _ = _
        rw [pobjSend, hs]
      obtain ⟨k3, kEnd3, hloop, hE⟩ := ih k2 kEnd2 e nd n hsub
      refine ⟨k3, kEnd3, ?_, hE⟩
      rw [srcLoop, hsend]
      exact hloop

theorem srcLoop_filt_fraisesAfter (S : List Val) :
    ∀ (b : Nat) (k : Val → FiltCons) (kEnd : FiltCons) (e : Exc) (nd : Node) (m : Nat),
      FRaisesAfter b (.pull k kEnd) S e → b + 4 ≤ m →
      ∃ k2 kEnd2,
        srcLoop m S ((some (.iterFilt (.atPullF k kEnd) false none), nd) : PObj)
            = ((some (.iterFilt (.atPullF k2 kEnd2) false none), nd), .ok)
          ∧ closeRunEnd kEnd2 = .errE e := by
  induction S with
  | nil =>
    intro b k kEnd e nd m h hm
    cases h with
    | base hE => exact ⟨k, kEnd, rfl, hE⟩
  | cons v vs ih =>
    intro b k kEnd e nd m h hm
    cases h with
    | step hv hsub =>
      obtain ⟨m1, rfl⟩ : ∃ m1, m = m1 + 2 := ⟨m - 2, by omega⟩
      obtain ⟨k2, kEnd2, b2, hb2, hder, hdr⟩ := fraisesAfter_drain hsub m1 (by omega)
      have hs : sendL (m1 + 1) (.iterFilt (.atPullF k kEnd) false none) v
          = (.iterFilt (.atPullF k2 kEnd2) false none, .ok) := by
        simp only [sendL]
        rw [if_neg hv, hdr]
      have hsend : pobjSend (m1 + 2) ((some (.iterFilt (.atPullF k kEnd) false none), nd) : PObj) v
          = ((some (.iterFilt (.atPullF k2 kEnd2) false none), nd), .ok) := by
        show pobjSend (m1 + 1 + 1) _ _ = _
        rw [pobjSend, hs]
      obtain ⟨k3, kEnd3, hloop, hE⟩ := ih b2 k2 kEnd2 e nd (m1 + 2) hder (by omega)
      refine ⟨k3, kEnd3, ?_, hE⟩
      rw [srcLoop, hsend]
      exact hloop

/-! Claim theorems. -/

/-- C1: for every finite input sequence `S` pushed by `iter_source` through
a resolved chain of `N` pure `pipefilter` transformation stages, the
sequence of values received by the terminal stage equals `S` mapped by the
composition of the stages' per-item functions in chain order, and the run
completes normally. -/
theorem c1_chain_composes (fs : List (Val → Val)) (S : List Val) (n : Nat) :
    gotVals (headLog (pipeOr (n + 2 * fs.length + 4) S (chainNode fs)).1) = S.map (compChain fs)
      ∧ (pipeOr (n + 2 * fs.length + 4) S (chainNode fs)).2 = .ok := by
  rw [pipeOr_chain]
  exact ⟨by simp [headLog, recLog_chainDead, gotVals_map_got], rfl⟩

/-- C5, counterexample: run `iter_source([v]) | c5FailNode`.  The head
stage raises on the first value; the source catches the failure, throws
it into the (already dead) head stage and re-raises (lines 387-392); the
close call of line 394 and the one of line 230 are both skipped, so the
live terminal stage received the failure event but zero close signals -
the claim promises exactly one close signal also when the run fails. -/
theorem c5_counterexample :
    closeCount (headLog (pipeOr 20 [.n 0] c5FailNode).1) = 0
      ∧ headLog (pipeOr 20 [.n 0] c5FailNode).1 = [.failed (.err 7)]
      ∧ (pipeOr 20 [.n 0] c5FailNode).2 = .raised (.err 7) := by decide

/-- C5, amended: when the source completes its sequence normally, every
live terminal stage receives the close signal exactly once (the second
close performed by `PipeSource.__or__` hits an already-terminated
generator and is a no-op); when the source or a stage fails, the pipeline
run raises after delivering the failure downstream, and no close signal
reaches the terminal stage. -/
theorem c5_close_once_on_normal_completion (fs : List (Val → Val)) (S : List Val) (n : Nat) :
    closeCount (headLog (pipeOr (n + 2 * fs.length + 4) S (chainNode fs)).1) = 1
      ∧ (pipeOr (n + 2 * fs.length + 4) S (chainNode fs)).2 = .ok := by
  rw [pipeOr_chain]
  exact ⟨by simp [headLog, recLog_chainDead, closeCount_map_got], rfl⟩

/-- C2, evaluation at the failing input: deliver one value to
`c2Broadcast`.  The first target's accept raises `err 9`; the fan-out
loop (lines 421-426) throws the failure into the second target, whose
re-raise is not a `StopIteration` and therefore aborts the loop: the
third target never receives the failure (its log stays empty),
contradicting both the claim and the code's own comments (lines 411-413,
420), which intend the failure to reach every other target. -/
theorem c2_broadcast_fanout_aborts :
    bcLogs (sendL 20 c2Broadcast (.n 0)).1 = [[], [.failed (.err 9)], []]
      ∧ (sendL 20 c2Broadcast (.n 0)).2 = .raised (.err 9) := by decide

/-- C6, counterexample: close `c6Broadcast`.  The close loop
(lines 428-430) has no handler around the per-target close, so the first
target's failure aborts it: the second target never receives its close
call (its log records no close event), contradicting the claim that a
failure raised by one target's close does not prevent the close calls to
the remaining targets. -/
theorem c6_counterexample :
    closeCount ((bcLogs (closeL 20 c6Broadcast).1).getD 1 []) = 0
      ∧ bcLogs (closeL 20 c6Broadcast).1 = [[], []]
      ∧ (closeL 20 c6Broadcast).2 = .raised (.err 2) := by decide

/-- C6, amended: on close, the broadcast stage closes its targets in
order only until one close raises; a failure in one target's close aborts
the remaining close calls - the later targets are left untouched - and
the exception propagates out of the broadcast's own close. -/
theorem c6_close_abort (e : Exc) (rest : List (Option LivePipe × Node)) (n : Nat) :
    closeL (n + 4) (.bcast false ((some (.closeRaiser e false), dmyNode) :: rest))
      = (.bcast true ((some (.closeRaiser e true), dmyNode) :: rest), .raised (pep479 e)) := by
  have hp : pobjClose (n + 2) ((some (.closeRaiser e false), dmyNode) : PObj)
      = ((some (.closeRaiser e true), dmyNode), .raised (pep479 e)) := by
    show pobjClose (n + 1 + 1) _ = _
    rw [pobjClose]
    rfl
  have hb : bcClose (n + 3) ((some (.closeRaiser e false), dmyNode) :: rest)
      = ((some (.closeRaiser e true), dmyNode) :: rest, .raised (pep479 e)) := by
    show bcClose (n + 2 + 1) _ = _
    rw [bcClose, hp]
  show closeL (n + 3 + 1) _ = _
  rw [closeL, hb]
  show (LivePipe.bcast true ((some (.closeRaiser e true), dmyNode) :: rest),
    Res.raised (pep479 (pep479 e))) = _
  rw [pep479_pep479]

/-- C3: when a `pipefilter` stage body bound to a downstream target raises
a domain failure `e` while processing a value, `e` is delivered to the
downstream target's throw operation - the recording terminal logs the
failure - and the same `e` is then re-raised to the stage's caller: the
failure is never swallowed. -/
theorem c3_failure_reaches_downstream_first (f : Val → Except Exc Val) (v : Val) (e : Exc)
    (L : List TEv) (n : Nat) (hf : f v = .error e) (he : e ≠ .stopIt) :
    sendL (n + 3) (.filtE f false (some (.recorder L false))) v
      = (.filtE f true (some (.recorder (L ++ [.failed e]) true)), .raised e) := by
  have hpe : pep479 e = e := by simp [pep479, he]
  show sendL (n + 2 + 1) _ _ = _
  rw [sendL, hf]
  show (LivePipe.filtE f true (fwd209 (n + 2) (some (.recorder L false)) (pep479 e)).1,
    (fwd209 (n + 2) (some (.recorder L false)) (pep479 e)).2) = _
  rw [hpe]
  have hfw : fwd209 (n + 2) (some (.recorder L false)) e
      = (some (.recorder (L ++ [.failed e]) true), .raised e) := by
    show fwd209 (n + 1 + 1) _ _ = _
    rw [fwd209]
    have ht : throwL (n + 1) (.recorder L false) e
        = (.recorder (L ++ [.failed e]) true, .raised (pep479 e)) := by
      rw [throwL]
    rw [ht, hpe]
  rw [hfw]

/-- Witness for C3 at a concrete stage, value, failure and fuel. -/
theorem c3_witness :
    sendL 3 (.filtE (fun _ => .error (.err 1)) false (some (.recorder [] false))) (.n 0)
      = (.filtE (fun _ => .error (.err 1)) true (some (.recorder [.failed (.err 1)] true)),
         .raised (.err 1)) :=
  c3_failure_reaches_downstream_first (fun _ => .error (.err 1)) (.n 0) (.err 1) [] 0 rfl
    (by decide)

/-- C9: when a `pipefilter` stage body raises `e` and line 212 forwards it
to the downstream target's throw, whatever that throw call does - return
normally or raise an exception of any type - is suppressed by the bare
`except: pass` of lines 213-214, and the original `e` is what the stage
re-raises to its caller.  The statement quantifies over an arbitrary live
downstream target. -/
theorem c9_bare_except_suppresses_target_throw (f : Val → Except Exc Val) (v : Val) (e : Exc)
    (t : LivePipe) (n : Nat) (hf : f v = .error e) (he : e ≠ .stopIt)
    (ht : (throwL n t e).2 = .ok ∨ ∃ e', (throwL n t e).2 = .raised e') :
    (sendL (n + 2) (.filtE f false (some t)) v).2 = .raised e := by
  have hpe : pep479 e = e := by simp [pep479, he]
  show (sendL (n + 1 + 1) _ _).2 = _
  rw [sendL, hf]
  show (fwd209 (n + 1) (some t) (pep479 e)).2 = _
  rw [hpe]
  show (fwd209 (n + 0 + 1) (some t) e).2 = _
  rw [fwd209]
  rcases hth : throwL n t e with ⟨t', r⟩
  rw [hth] at ht
  rcases ht with h | ⟨e', h⟩ <;> simp only at h <;> rw [h]

/-- Witness for C9 at a concrete stage and target whose throw re-raises. -/
theorem c9_witness :
    (sendL 5 (.filtE (fun _ => .error (.err 1)) false (some (.recorder [] false))) (.n 0)).2
      = .raised (.err 1) :=
  c9_bare_except_suppresses_target_throw (fun _ => .error (.err 1)) (.n 0) (.err 1)
    (.recorder [] false) 3 rfl (by decide) (Or.inr ⟨.err 1, by decide⟩)

/-- C4, counterexample: resolve `c4Node` once - the object is now cached
(`isSome`) - then ask what a second explicit `resolve()` call on the same
object does: it invokes the stage constructor again (count 1, not 0),
because `Pipe.resolve` / `PipeElement.resolve` consult no cache -
contradicting the claim that a second resolve returns the cached live
operations of the first resolution without invoking any stage
constructor. -/
theorem c4_counterexample :
    ((pobjResolve 5 ((none, c4Node) : PObj)).1.1.isSome = true)
      ∧ resolveCallCount (pobjResolve 5 ((none, c4Node) : PObj)).1 = 1 := by
  constructor <;> rfl

/-- C4, amended: an explicit second `resolve()` call re-invokes the stage
constructors and rebuilds a fresh live chain; what is cached is the
node's `send`/`throw`/`close` entry points - after the first resolution
they are the live stage's bound methods, so repeated sends dispatch
straight to the cached live stage and invoke no constructor. -/
theorem c4_cached_dispatch (live : LivePipe) (nd : Node) (v : Val) (n : Nat) :
    methodCallCount ((some live, nd) : PObj) = 0
      ∧ pobjSend (n + 1) ((some live, nd) : PObj) v
          = ((some (sendL n live v).1, nd), (sendL n live v).2) := by
  exact ⟨rfl, rfl⟩

/-- C7, counterexample: drive `iter_source([5]) | (bridged filter |
recorder)` where the bridged filter consumer (`c7LateYieldCons`) consumes
the one available item and, after the end of input, yields one further
output before raising `err 5`.  During close, the handler of lines
356-357 performs a single switch and discards its result, so the consumer
is abandoned at that yield: the run completes normally and `err 5` never
surfaces from the driving call - contradicting the claim for this
consumer, which does raise after consuming all available items.  (This is
the behaviour the caveat of lines 309-312 documents.) -/
theorem c7_counterexample :
    (pipeOr 20 [.n 5] c7LateYieldNode).2 = .ok
      ∧ headLog (pipeOr 20 [.n 5] c7LateYieldNode).1 = [.got (.n 5), .closedEv] := by decide

/-- C7, amended: for every bridged consumer, in both branches of
`iter_filter`/`iter_sink`: a consumer that raises `e` before pulling any
item makes the driving call surface exactly `e`, for every input sequence
(priming raises during the lazy resolution); every sink consumer that
consumes all available items and then raises `e` makes the driving call
surface exactly `e`; and every filter consumer that consumes all
available items and then raises `e` before yielding a further output
makes the driving call surface exactly `e`.  (A filter consumer that
yields another output after the end of input is instead abandoned at that
yield during close and its exception is dropped - the counterexample.) -/
theorem c7_exception_surfaces :
    (∀ (e : Exc) (S : List Val) (n : Nat), e ≠ .stopIt →
        (pipeOr (n + 4) S (.elem (.iterSinkD (.raise e)))).2 = .raised e
      ∧ (pipeOr (n + 4) S (.elem (.iterFiltD (.raise e)))).2 = .raised e)
  ∧ (∀ (k : Val → SinkCons) (kEnd : SinkCons) (S : List Val) (e : Exc) (n : Nat),
      RaisesAfter (.pull k kEnd) S e → e ≠ .stopIt →
      (pipeOr (n + 4) S (.elem (.iterSinkD (.pull k kEnd)))).2 = .raised e)
  ∧ (∀ (b : Nat) (k : Val → FiltCons) (kEnd : FiltCons) (S : List Val) (e : Exc) (m : Nat),
      FRaisesAfter b (.pull k kEnd) S e → e ≠ .stopIt → b + 6 ≤ m →
      (pipeOr m S (.elem (.iterFiltD (.pull k kEnd)))).2 = .raised e) := by
  refine ⟨?_, ?_, ?_⟩
  · intro e S n he
    constructor <;> (cases S <;> cases e <;> first | exact absurd rfl he | rfl)
  · intro k kEnd S e n h he
    have hpe : pep479 e = e := by simp [pep479, he]
    have hres : resolveN (n + 3) (Node.elem (.iterSinkD (.pull k kEnd))) none
        = .good (.iterSink (.atPull k kEnd) false none) := rfl
    have hcl : ∀ (k3 : Val → SinkCons) (kEnd3 : SinkCons), runSinkEnd kEnd3 = .errE e →
        closeL (n + 3) (.iterSink (.atPull k3 kEnd3) false none)
          = (.iterSink .deadC true none, .raised e) := by
      intro k3 kEnd3 hE
      show closeL (n + 2 + 1) _ = _
      simp only [closeL]
      rw [hE]
      show ((.iterSink .deadC true none : LivePipe), Res.raised (pep479 e)) = _
      rw [hpe]
    cases S with
    | nil =>
      cases h with
      | base hE =>
        have hpc : pobjClose (n + 4) ((none, Node.elem (.iterSinkD (.pull k kEnd))) : PObj)
            = ((some (.iterSink .deadC true none),
                Node.elem (.iterSinkD (.pull k kEnd))), .raised e) := by
          show pobjClose (n + 3 + 1) _ = _
          rw [pobjClose, hres]
          show ((some (closeL (n + 3) (.iterSink (.atPull k kEnd) false none)).1,
              Node.elem (.iterSinkD (.pull k kEnd))),
            (closeL (n + 3) (.iterSink (.atPull k kEnd) false none)).2) = _
          rw [hcl k kEnd hE]
        rw [pipeOr, iterSourceFn, srcLoop]
        simp only [hpc]
    | cons v vs =>
      cases h with
      | step hv hsub =>
        obtain ⟨k2, kEnd2, hk⟩ := raisesAfter_pull hsub
        rw [hk] at hsub
        have hs1 : sendL (n + 3) (.iterSink (.atPull k kEnd) false none) v
            = (.iterSink (.atPull k2 kEnd2) false none, .ok) := by
          simp only [sendL]
          rw [if_neg hv, hk]
        have hsend : pobjSend (n + 4)
            ((none, Node.elem (.iterSinkD (.pull k kEnd))) : PObj) v
            = ((some (.iterSink (.atPull k2 kEnd2) false none),
                Node.elem (.iterSinkD (.pull k kEnd))), .ok) := by
          show pobjSend (n + 3 + 1) _ _ = _
          rw [pobjSend, hres]
          show ((some (sendL (n + 3) (.iterSink (.atPull k kEnd) false none) v).1,
              Node.elem (.iterSinkD (.pull k kEnd))),
            (sendL (n + 3) (.iterSink (.atPull k kEnd) false none) v).2) = _
          rw [hs1]
        obtain ⟨k3, kEnd3, hloop, hE3⟩ :=
          srcLoop_sink_raisesAfter vs k2 kEnd2 e
            (Node.elem (.iterSinkD (.pull k kEnd))) (n + 2) hsub
        have hloop2 : srcLoop (n + 4) vs
            ((some (.iterSink (.atPull k2 kEnd2) false none),
              Node.elem (.iterSinkD (.pull k kEnd))) : PObj)
            = ((some (.iterSink (.atPull k3 kEnd3) false none),
                Node.elem (.iterSinkD (.pull k kEnd))), .ok) := hloop
        have hpcl : pobjClose (n + 4)
            ((some (.iterSink (.atPull k3 kEnd3) false none),
              Node.elem (.iterSinkD (.pull k kEnd))) : PObj)
            = ((some (.iterSink .deadC true none),
                Node.elem (.iterSinkD (.pull k kEnd))), .raised e) := by
          show pobjClose (n + 3 + 1) _ = _
          rw [pobjClose]
          show ((some (closeL (n + 3) (.iterSink (.atPull k3 kEnd3) false none)).1,
              Node.elem (.iterSinkD (.pull k kEnd))),
            (closeL (n + 3) (.iterSink (.atPull k3 kEnd3) false none)).2) = _
          rw [hcl k3 kEnd3 hE3]
        rw [pipeOr, iterSourceFn, srcLoop]
        simp only [hsend, hloop2, hpcl]
  · intro b k kEnd S e m h he hm
    obtain ⟨m1, rfl⟩ : ∃ m1, m = m1 + 4 := ⟨m - 4, by omega⟩
    have hpe : pep479 e = e := by simp [pep479, he]
    have hres : resolveN (m1 + 3) (Node.elem (.iterFiltD (.pull k kEnd))) none
        = .good (.iterFilt (.atPullF k kEnd) false none) := rfl
    have hcl : ∀ (k3 : Val → FiltCons) (kEnd3 : FiltCons), closeRunEnd kEnd3 = .errE e →
        closeL (m1 + 3) (.iterFilt (.atPullF k3 kEnd3) false none)
          = (.iterFilt .deadF true none, .raised e) := by
      intro k3 kEnd3 hE
      show closeL (m1 + 2 + 1) _ = _
      simp only [closeL]
      rw [hE]
      show ((.iterFilt .deadF true none : LivePipe), Res.raised (pep479 e)) = _
      rw [hpe]
    cases S with
    | nil =>
      cases h with
      | base hE =>
        have hpc : pobjClose (m1 + 4) ((none, Node.elem (.iterFiltD (.pull k kEnd))) : PObj)
            = ((some (.iterFilt .deadF true none),
                Node.elem (.iterFiltD (.pull k kEnd))), .raised e) := by
          show pobjClose (m1 + 3 + 1) _ = _
          rw [pobjClose, hres]
          show ((some (closeL (m1 + 3) (.iterFilt (.atPullF k kEnd) false none)).1,
              Node.elem (.iterFiltD (.pull k kEnd))),
            (closeL (m1 + 3) (.iterFilt (.atPullF k kEnd) false none)).2) = _
          rw [hcl k kEnd hE]
        rw [pipeOr, iterSourceFn, srcLoop]
        simp only [hpc]
    | cons v vs =>
      cases h with
      | step hv hsub =>
        obtain ⟨k2, kEnd2, b2, hb2, hder, hdr⟩ := fraisesAfter_drain hsub (m1 + 2) (by omega)
        have hs1 : sendL (m1 + 3) (.iterFilt (.atPullF k kEnd) false none) v
            = (.iterFilt (.atPullF k2 kEnd2) false none, .ok) := by
          simp only [sendL]
          rw [if_neg hv, hdr]
        have hsend : pobjSend (m1 + 4)
            ((none, Node.elem (.iterFiltD (.pull k kEnd))) : PObj) v
            = ((some (.iterFilt (.atPullF k2 kEnd2) false none),
                Node.elem (.iterFiltD (.pull k kEnd))), .ok) := by
          show pobjSend (m1 + 3 + 1) _ _ = _
          rw [pobjSend, hres]
          show ((some (sendL (m1 + 3) (.iterFilt (.atPullF k kEnd) false none) v).1,
              Node.elem (.iterFiltD (.pull k kEnd))),
            (sendL (m1 + 3) (.iterFilt (.atPullF k kEnd) false none) v).2) = _
          rw [hs1]
        obtain ⟨k3, kEnd3, hloop, hE3⟩ :=
          srcLoop_filt_fraisesAfter vs b2 k2 kEnd2 e
            (Node.elem (.iterFiltD (.pull k kEnd))) (m1 + 4) hder (by omega)
        have hpcl : pobjClose (m1 + 4)
            ((some (.iterFilt (.atPullF k3 kEnd3) false none),
              Node.elem (.iterFiltD (.pull k kEnd))) : PObj)
            = ((some (.iterFilt .deadF true none),
                Node.elem (.iterFiltD (.pull k kEnd))), .raised e) := by
          show pobjClose (m1 + 3 + 1) _ = _
          rw [pobjClose]
          show ((some (closeL (m1 + 3) (.iterFilt (.atPullF k3 kEnd3) false none)).1,
              Node.elem (.iterFiltD (.pull k kEnd))),
            (closeL (m1 + 3) (.iterFilt (.atPullF k3 kEnd3) false none)).2) = _
          rw [hcl k3 kEnd3 hE3]
        rw [pipeOr, iterSourceFn, srcLoop]
        simp only [hsend, hloop, hpcl]

/-- Witness for the amended C7: the repo's two test scenarios (consumer
raising on entry; sink consumer raising after the end of input) and a
filter consumer raising right after the end of input, each surfacing its
exact exception from the driving call. -/
theorem c7_witness :
    (pipeOr 20 [.n 0, .n 1] c7ImmediateNode).2 = .raised (.err 3)
  ∧ (pipeOr 20 [.n 5] c7AfterEndNode).2 = .raised (.err 4)
  ∧ (pipeOr 20 [.n 5] (.elem (.iterFiltD c7FiltAfterEndCons))).2 = .raised (.err 5) := by
  refine ⟨(c7_exception_surfaces.1 (.err 3) [.n 0, .n 1] 16 (by decide)).1, ?_, ?_⟩
  · exact c7_exception_surfaces.2.1 (fun _ => .pull (fun _ => .done) (.raise (.err 4)))
      (.raise (.err 4)) [.n 5] (.err 4) 16
      (RaisesAfter.step (by decide) (RaisesAfter.base rfl)) (by decide)
  · exact c7_exception_surfaces.2.2 1
      (fun v => .out v (.pull (fun _ => .done) (.raise (.err 5)))) (.raise (.err 5))
      [.n 5] (.err 5) 20
      (FRaisesAfter.step (by decide) (FRaisesAfter.out (FRaisesAfter.base rfl)))
      (by decide) (by decide)

/-- C8, counterexample: send one value to `c8Stage` - the consumer
finishes its pull loop - then deliver a failure.  The failure is thrown
into the dead consumer greenlet, which raises it right back in the
bridge, so the stage re-raises it to its caller: the failure is not
dropped, contrary to the claim. -/
theorem c8_counterexample :
    (sendL 9 c8Stage (.n 0)).2 = .ok
      ∧ (throwL 9 (sendL 9 c8Stage (.n 0)).1 (.err 6)).2 = .raised (.err 6) := by decide

/-- C8, amended: a failure accepted from upstream after the bridged
consumer has finished its pull loop is forwarded to the downstream target
(line 212) and then re-raised to the caller, exactly like a failure
during normal operation - throwing into the dead consumer greenlet
raises the exception in the bridge rather than discarding it. -/
theorem c8_late_failure_propagates (e : Exc) (L : List TEv) (n : Nat) (he : e ≠ .stopIt) :
    throwL (n + 3) (.iterSink .deadC false (some (.recorder L false))) e
      = (.iterSink .deadC true (some (.recorder (L ++ [.failed e]) true)), .raised e) := by
  have hpe : pep479 e = e := by simp [pep479, he]
  show throwL (n + 2 + 1) _ _ = _
  rw [throwL, hpe]
  have hfw : fwd209 (n + 2) (some (.recorder L false)) e
      = (some (.recorder (L ++ [.failed e]) true), .raised e) := by
    show fwd209 (n + 1 + 1) _ _ = _
    rw [fwd209]
    have ht : throwL (n + 1) (.recorder L false) e
        = (.recorder (L ++ [.failed e]) true, .raised (pep479 e)) := by
      rw [throwL]
    rw [ht, hpe]
  rw [hfw]

/-- Witness for the amended C8 at a concrete failure and target. -/
theorem c8_witness :
    throwL 3 (.iterSink .deadC false (some (.recorder [] false))) (.err 6)
      = (.iterSink .deadC true (some (.recorder [.failed (.err 6)] true)), .raised (.err 6)) :=
  c8_late_failure_propagates (.err 6) [] 0 (by decide)

/-- C10: a value that is an instance of `GeneratorExit` accepted by an
`iter_filter`/`iter_sink` stage - in either branch - is interpreted as
the end-of-input marker (the `isinstance` test of line 324 inside the
shared `generator()` helper): the consumer's pending data continuation is
never applied - the result does not depend on it - and the consumer's
input iterator terminates, so the consumer runs its end-of-iteration
continuation (`runSinkEnd` for a sink consumer; `drainEnd`, which
short-circuits every further pull to the end branch while still
forwarding yielded outputs, for a filter consumer). -/
theorem c10_gexit_value_is_end_marker (k1 k2 : Val → SinkCons) (kEnd : SinkCons)
    (g1 g2 : Val → FiltCons) (gEnd : FiltCons)
    (tgt tgf : Option LivePipe) (n : Nat) :
    (sendL (n + 1) (.iterSink (.atPull k1 kEnd) false tgt) .gexit
        = sendL (n + 1) (.iterSink (.atPull k2 kEnd) false tgt) .gexit)
  ∧ (sendL (n + 1) (.iterSink (.atPull k1 kEnd) false tgt) .gexit
        = (match runSinkEnd kEnd with
           | .fin => (.iterSink .deadC false tgt, .ok)
           | .errE e =>
             (.iterSink .deadC true (fwd209 n tgt (pep479 e)).1,
              (fwd209 n tgt (pep479 e)).2)))
  ∧ (sendL (n + 1) (.iterFilt (.atPullF g1 gEnd) false tgf) .gexit
        = sendL (n + 1) (.iterFilt (.atPullF g2 gEnd) false tgf) .gexit)
  ∧ (sendL (n + 1) (.iterFilt (.atPullF g1 gEnd) false tgf) .gexit
        = (match drainEnd n gEnd tgf with
           | (t', .susp st) => (.iterFilt st false t', .ok)
           | (t', .dErr e) =>
             (.iterFilt .deadF true (fwd209 n t' e).1, (fwd209 n t' e).2)
           | (t', .dHang) => (.iterFilt .deadF false t', .hang)
           | (t', .dOut) => (.iterFilt .deadF false t', .fuelOut))) := by
  refine ⟨rfl, rfl, rfl, rfl⟩

end Genpipeline
